import Mathlib

/-!
Verification of the voice-assistant core (src/voice_detection.rs, src/audio.rs,
src/main.rs) against its natural-language specification.

Modelling conventions:
* Rust `f32` values are idealised as real numbers `ℝ` (voice detection) or
  rationals `ℚ` (resampler, where all arithmetic is rational); the claims under
  study are control-flow and structural properties that do not depend on
  floating-point rounding.
* Rust `String`/`&str` values are modelled as `List Char` (Unicode scalar
  sequences); `str::contains` is byte-level substring search, which on valid
  UTF-8 coincides with scalar-level infix (`<:+:`), and `str::len` is the
  UTF-8 byte length, modelled by summing `Char.utf8Size`.
* A Rust panic (e.g. `slice::chunks` with chunk size 0) is modelled by an
  `Option` result being `none`.
-/

namespace VoiceAssistant

/-- Lowercasing of a string, `str::to_lowercase` (agreeing on ASCII). -/
def strLower (s : List Char) : List Char := s.map Char.toLower

/-- Substring containment: `hay.contains(needle)` for Rust strings. -/
def containsSub (hay needle : List Char) : Bool := decide (needle <:+: hay)

/-- Whitespace splitting, `str::split_whitespace`: split at whitespace and
drop the empty fragments. -/
def splitWs (s : List Char) : List (List Char) :=
  (List.splitOnP (fun c => c.isWhitespace) s).filter (fun w => !w.isEmpty)

/-- UTF-8 byte length of a string (`str::len`). -/
def utf8Len (w : List Char) : ℕ := (w.map Char.utf8Size).sum

/-- Fuel-driven worker for the Levenshtein distance; fuel `|s1| + |s2|`
always suffices, and the fuel-exhausted fallback agrees with the distance in
the (unreachable for adequate fuel) base cases. -/
def levGo : ℕ → List Char → List Char → ℕ
  | 0, s1, s2 => s1.length + s2.length
  | _ + 1, [], s2 => s2.length
  | _ + 1, c1 :: s1, [] => (c1 :: s1).length
  | fuel + 1, c1 :: s1, c2 :: s2 =>
      let cost : ℕ := if c1 = c2 then 0 else 1
      min (min (levGo fuel s1 (c2 :: s2) + 1) (levGo fuel (c1 :: s1) s2 + 1))
          (levGo fuel s1 s2 + cost)

/-- `VoiceDetector::levenshtein_distance`: the classic dynamic-programming
edit distance over Unicode scalar values, with unit insertion, deletion and
substitution costs (expressed by its standard recurrence). -/
def levenshtein (s1 s2 : List Char) : ℕ := levGo (s1.length + s2.length) s1 s2

/-- The Rust `VoiceDetector` struct. -/
structure VoiceDetector where
  energy_threshold : ℝ
  silence_duration : ℝ
  activation_word : List Char
  noise_floor : ℝ
  energy_history : List ℝ
  history_size : ℕ
  consecutive_threshold : ℕ

namespace VoiceDetector

/-- `VoiceDetector::new`: stores the lowercased activation word and fixed
defaults; performs no validation whatsoever. -/
def new (energy_threshold : ℝ) (silence_duration : ℝ)
    (activation_word : List Char) : VoiceDetector where
  energy_threshold := energy_threshold
  silence_duration := silence_duration
  activation_word := strLower activation_word
  noise_floor := 0.01
  energy_history := []
  history_size := 50
  consecutive_threshold := 3

/-- `VoiceDetector::matches_wake_word`: lowercase the text, then the
three-tier cascade — activation-word containment, per-word Levenshtein
distance at most 1 for words of byte length at least 2, then the fixed
confusable tokens. -/
def matches_wake_word (d : VoiceDetector) (text0 : List Char) : Bool :=
  let text := strLower text0
  let words := splitWs text
  if containsSub text d.activation_word then true
  else if words.any
      (fun w => utf8Len w ≥ 2 && levenshtein w d.activation_word ≤ 1) then true
  else
    containsSub text ['y', 'o'] || containsSub text ['y', 'o', 'o'] ||
    containsSub text ['y', 'o', 'u'] || containsSub text ['y', 'e', 'a', 'h']

/-- `VoiceDetector::calculate_rms`: root-mean-square of a frame, `0.0` for an
empty frame. -/
noncomputable def calculate_rms (samples : List ℝ) : ℝ :=
  if samples = [] then 0
  else Real.sqrt ((samples.map (fun s => s * s)).sum / samples.length)

/-- The first half of `VoiceDetector::update_noise_floor` (lines 40–43):
`push_back` the observed RMS, then `pop_front` once if the length now
exceeds the capacity. -/
def histAfter (d : VoiceDetector) (rms : ℝ) : List ℝ :=
  let h1 := d.energy_history ++ [rms]
  if h1.length > d.history_size then h1.tail else h1

/-- `VoiceDetector::update_noise_floor`: push the observed RMS onto the
energy history, evict the oldest entry if the capacity is exceeded, then (if
the history is non-empty) set the noise floor to the entry at index
`max(1, (len * 0.1) as usize) - 1` of an ascending-sorted copy. -/
noncomputable def update_noise_floor (d : VoiceDetector) (rms : ℝ) :
    VoiceDetector :=
  let h2 := d.histAfter rms
  if h2.isEmpty then { d with energy_history := h2 }
  else
    let energies := h2.insertionSort (· ≤ ·)
    let index := ⌊(energies.length : ℝ) * 0.1⌋₊
    { d with
        energy_history := h2
        noise_floor := energies.getD (max index 1 - 1) 0 }

end VoiceDetector

/-- Fuel-driven worker for `slice::chunks`: each step takes `w` elements
(the final chunk may be shorter).  Fuel equal to the list length always
suffices since every step consumes at least one element when `w ≥ 1`. -/
def chunksGo (w : ℕ) : ℕ → List α → List (List α)
  | 0, _ => []
  | _, [] => []
  | fuel + 1, x :: xs => (x :: xs).take w :: chunksGo w fuel (xs.drop (w - 1))

/-- `samples.chunks(w)` for `w ≥ 1`: successive frames of `w` samples, the
last partial frame included.  (The `w = 0` panic case is handled by the
caller, `is_voice_active`.) -/
def chunksOf (w : ℕ) (xs : List α) : List (List α) := chunksGo w xs.length xs

namespace VoiceDetector

/-- The frame loop of `VoiceDetector::is_voice_active`: for each frame,
compute the RMS, update the noise floor, compare against
`max(energy_threshold, noise_floor * 2.5)`, and return `true` as soon as the
consecutive-active counter reaches `required`. -/
noncomputable def vadLoop (required : ℕ) :
    VoiceDetector → ℕ → List (List ℝ) → Bool × VoiceDetector
  | d, _, [] => (false, d)
  | d, consec, frame :: frames =>
    let rms := calculate_rms frame
    let d' := update_noise_floor d rms
    let dynamic_threshold := d'.noise_floor * 2.5
    let threshold := max d'.energy_threshold dynamic_threshold
    if rms > threshold then
      if required ≤ consec + 1 then (true, d')
      else vadLoop required d' (consec + 1) frames
    else vadLoop required d' 0 frames

/-- `VoiceDetector::is_voice_active`.  A `none` result models the Rust panic
raised by `slice::chunks` when `window_size = 0`; otherwise the result is the
activity verdict paired with the mutated detector. -/
noncomputable def is_voice_active (d : VoiceDetector) (samples : List ℝ)
    (window_size : ℕ) : Option (Bool × VoiceDetector) :=
  if window_size = 0 then none
  else some (vadLoop d.consecutive_threshold d 0 (chunksOf window_size samples))

/-- `VoiceDetector::detect_silence`: derive the window size by the `as usize`
truncation of `sample_rate * silence_duration` and negate the activity
verdict of `is_voice_active` on the same (mutated) detector. -/
noncomputable def detect_silence (d : VoiceDetector) (samples : List ℝ)
    (sample_rate : ℕ) : Option (Bool × VoiceDetector) :=
  (d.is_voice_active samples ⌊(sample_rate : ℝ) * d.silence_duration⌋₊).map
    (fun p => (!p.1, p.2))

end VoiceDetector

/-- The pure resampling step at the end of `AudioCapture::record`
(src/audio.rs lines 90–110), emitting output index `i` onwards with the given
remaining fuel; an output position whose floor reaches `input_length - 1`
stops the loop (the Rust `break`). -/
def resampleGo (samples : List ℚ) (rate : ℕ) : ℕ → ℕ → List ℚ
  | 0, _ => []
  | fuel + 1, i =>
    let ratio : ℚ := 16000 / (rate : ℚ)
    let pos : ℚ := (i : ℚ) / ratio
    let posFloor : ℕ := ⌊pos⌋₊
    if samples.length - 1 ≤ posFloor then []
    else
      let fract : ℚ := pos - (posFloor : ℚ)
      let s1 := samples.getD posFloor 0
      let s2 := samples.getD (posFloor + 1) 0
      (s1 * (1 - fract) + s2 * fract) :: resampleGo samples rate fuel (i + 1)

/-- The resampling step of `AudioCapture::record`: identity when the source
rate is already 16000, otherwise linear interpolation over
`(len * (16000 / rate)) as usize` candidate output positions with edge
truncation. -/
def resample (samples : List ℚ) (rate : ℕ) : List ℚ :=
  if rate = 16000 then samples
  else
    let ratio : ℚ := 16000 / (rate : ℚ)
    let out_len : ℕ := ⌊(samples.length : ℚ) * ratio⌋₊
    resampleGo samples rate out_len 0

/-- The `ConversationState` enum of src/main.rs. -/
inductive ConversationState where
  | Idle
  | AwaitingWakeWord
  | Listening
  | Processing
deriving DecidableEq

/-- The mutable fields of the `VoiceAssistant` struct that the orchestration
logic reads or writes (the audio/speech handles are external collaborators
abstracted by `Env`). -/
structure Assistant where
  voice_detector : VoiceDetector
  is_active : Bool
  state : ConversationState
  command_history : List (List Char × List Char)
  max_history : ℕ

/-- One cycle's worth of external-collaborator outcomes: the recorded sample
buffers, WAV persistence, speech-to-text, the reasoning backend and speech
output, each of which may fail with an error. -/
structure Env where
  captureShort : Except Unit (List ℝ)
  captureLong : Except Unit (List ℝ)
  saveWav : Except Unit Unit
  stt : Except Unit (List Char)
  llm : Except Unit (List Char)
  tts : Except Unit Unit

namespace Assistant

/-- `VoiceAssistant::add_to_history`: append the (command, response) pair and
evict the oldest entry when the configured maximum is exceeded. -/
def add_to_history (a : Assistant) (command response : List Char) : Assistant :=
  let h1 := a.command_history ++ [(command, response)]
  { a with command_history := if h1.length > a.max_history then h1.tail else h1 }

/-- `VoiceAssistant::process_interaction`: one orchestration cycle.  The
result is `none` for a panic inside the voice detector, and otherwise the
mutated assistant paired with the `Result` value the cycle returns. -/
noncomputable def process_interaction (a : Assistant) (env : Env) :
    Option (Assistant × Except Unit Unit) :=
  match a.state with
  | .Idle | .AwaitingWakeWord =>
    match env.captureShort with
    | .error e => some (a, .error e)
    | .ok samples =>
      if samples = [] then some (a, .ok ())
      else
        match env.saveWav with
        | .error e => some (a, .error e)
        | .ok _ =>
          match env.stt with
          | .error e => some (a, .error e)
          | .ok text =>
            if a.voice_detector.matches_wake_word text then
              some ({ a with state := .Listening, is_active := true }, .ok ())
            else some (a, .ok ())
  | .Listening =>
    match env.captureLong with
    | .error e => some (a, .error e)
    | .ok samples =>
      -- `samples.is_empty() || !is_voice_active(...)`, short-circuiting
      match (if samples = [] then some (true, a) else
          (a.voice_detector.is_voice_active samples 1024).map
            (fun p => (!p.1, { a with voice_detector := p.2 }))) with
      | none => none
      | some (inactive, a1) =>
        if inactive then
          match a1.voice_detector.detect_silence samples 16000 with
          | none => none
          | some (silent, det2) =>
            let a2 := { a1 with voice_detector := det2 }
            if silent then
              some ({ a2 with state := .AwaitingWakeWord, is_active := false },
                .ok ())
            else some (a2, .ok ())
        else
          match env.saveWav with
          | .error e => some (a1, .error e)
          | .ok _ =>
            match env.stt with
            | .error e => some (a1, .error e)
            | .ok text =>
              if text = [] then
                some ({ a1 with state := .AwaitingWakeWord, is_active := false },
                  .ok ())
              else
                let aP := { a1 with state := .Processing }
                match env.llm with
                | .error e => some (aP, .error e)
                | .ok response =>
                  let aH := aP.add_to_history text response
                  match env.tts with
                  | .error e => some (aH, .error e)
                  | .ok _ =>
                    some ({ aH with
                              state := .AwaitingWakeWord
                              is_active := false }, .ok ())
  | .Processing => some ({ a with state := .Listening }, .ok ())

/-- One iteration of the `run` control loop: execute the cycle and, if it
returned an error, log it and forcibly reset the state to `AwaitingWakeWord`
with the active flag cleared before continuing.  A `none` result models a
panic (which the loop does not catch). -/
noncomputable def runStep (a : Assistant) (env : Env) : Option Assistant :=
  match a.process_interaction env with
  | none => none
  | some (a', .ok _) => some a'
  | some (a', .error _) =>
      some { a' with state := .AwaitingWakeWord, is_active := false }

end Assistant

/-! ## Wake-word matcher: general lemmas -/

/-- `matches_wake_word` equals the disjunction of its three tiers (the
early-return cascade is a Boolean disjunction). -/
theorem matches_wake_word_eq_tiers (d : VoiceDetector) (text : List Char) :
    d.matches_wake_word text =
      (containsSub (strLower text) d.activation_word ||
       (splitWs (strLower text)).any
         (fun w => utf8Len w ≥ 2 && levenshtein w d.activation_word ≤ 1) ||
       (containsSub (strLower text) ['y', 'o'] ||
        containsSub (strLower text) ['y', 'o', 'o'] ||
        containsSub (strLower text) ['y', 'o', 'u'] ||
        containsSub (strLower text) ['y', 'e', 'a', 'h'])) := by
  unfold VoiceDetector.matches_wake_word
  cases h1 : containsSub (strLower text) d.activation_word <;>
    cases h2 : (splitWs (strLower text)).any
      (fun w => utf8Len w ≥ 2 && levenshtein w d.activation_word ≤ 1) <;>
    simp [h1, h2]

/-- Propositional form of the three-tier cascade. -/
theorem matches_wake_word_iff (d : VoiceDetector) (text : List Char) :
    d.matches_wake_word text = true ↔
      (d.activation_word <:+: strLower text ∨
       (∃ w ∈ splitWs (strLower text),
          2 ≤ utf8Len w ∧ levenshtein w d.activation_word ≤ 1) ∨
       (['y', 'o'] <:+: strLower text ∨ ['y', 'o', 'o'] <:+: strLower text ∨
        ['y', 'o', 'u'] <:+: strLower text ∨
        ['y', 'e', 'a', 'h'] <:+: strLower text)) := by
  rw [matches_wake_word_eq_tiers]
  simp [containsSub, List.any_eq_true, Bool.and_eq_true, decide_eq_true_eq,
    or_assoc]

/-! ## Claim C1 -/

/-- Claim C1: `matches_wake_word(text)` returns true if and only if one of
three tiers fires: (1) the lowercased text contains the activation phrase as
a substring; (2) some whitespace-separated word of the lowercased text of
length ≥ 2 has Levenshtein distance ≤ 1 to the activation phrase; (3) the
lowercased text contains one of the confusable tokens "yo", "yoo", "you",
"yeah".  For activation phrase "yo": "y0" matches and "hello there" does
not. -/
theorem C1_matches_wake_word_three_tier_cascade :
    (∀ (d : VoiceDetector) (text : List Char),
      d.matches_wake_word text = true ↔
        (d.activation_word <:+: strLower text ∨
         (∃ w ∈ splitWs (strLower text),
            2 ≤ utf8Len w ∧ levenshtein w d.activation_word ≤ 1) ∨
         (['y', 'o'] <:+: strLower text ∨ ['y', 'o', 'o'] <:+: strLower text ∨
          ['y', 'o', 'u'] <:+: strLower text ∨
          ['y', 'e', 'a', 'h'] <:+: strLower text))) ∧
    (VoiceDetector.new 0.02 0.5 ['y', 'o']).matches_wake_word
      (("y0").toList) = true ∧
    (VoiceDetector.new 0.02 0.5 ['y', 'o']).matches_wake_word
      (("hello there").toList) = false :=
  ⟨matches_wake_word_iff, by decide, by decide⟩

/-! ## Claim C2 -/

/-- Claim C2 (code bug): the spec requires `VoiceDetector::new` to reject an
empty activation phrase at construction time, but the constructor performs no
validation: it returns a detector whose (empty) activation word makes
`matches_wake_word` accept every text, the trivial-match misbehaviour the
spec's edge-case note warns about. -/
theorem C2_new_accepts_empty_activation_phrase :
    (VoiceDetector.new 0.02 0.5 []).activation_word = [] ∧
    ∀ text : List Char,
      (VoiceDetector.new 0.02 0.5 []).matches_wake_word text = true := by
  refine ⟨rfl, fun text => ?_⟩
  rw [matches_wake_word_eq_tiers]
  simp [VoiceDetector.new, containsSub, strLower]

/-! ## Claim C10 -/

/-- Claim C10: the confusable-token tier applies for every configured
activation phrase, not only the default: whenever the lowercased text
contains "yo", "yoo", "you" or "yeah" as a substring, `matches_wake_word`
returns true regardless of the activation word. -/
theorem C10_confusables_fire_for_any_phrase (d : VoiceDetector)
    (text : List Char)
    (h : ['y', 'o'] <:+: strLower text ∨ ['y', 'o', 'o'] <:+: strLower text ∨
         ['y', 'o', 'u'] <:+: strLower text ∨
         ['y', 'e', 'a', 'h'] <:+: strLower text) :
    d.matches_wake_word text = true :=
  (matches_wake_word_iff d text).mpr (Or.inr (Or.inr h))

/-- Witness for C10: with activation phrase "computer", the input "yeah"
matches. -/
theorem C10_confusables_fire_for_any_phrase_witness :
    (['y', 'o'] <:+: strLower (("yeah").toList) ∨
     ['y', 'o', 'o'] <:+: strLower (("yeah").toList) ∨
     ['y', 'o', 'u'] <:+: strLower (("yeah").toList) ∨
     ['y', 'e', 'a', 'h'] <:+: strLower (("yeah").toList)) ∧
    (VoiceDetector.new 0.02 0.5 (("computer").toList)).matches_wake_word
      (("yeah").toList) = true :=
  ⟨by decide,
   C10_confusables_fire_for_any_phrase (VoiceDetector.new 0.02 0.5
     (("computer").toList)) (("yeah").toList) (by decide)⟩

/-! ## Noise-floor tracker: general lemmas -/

/-- A non-empty history list has `isEmpty = false`. -/
theorem isEmpty_false_of_ne_nil {l : List ℝ} (h : l ≠ []) :
    l.isEmpty = false := by
  cases l with
  | nil => exact absurd rfl h
  | cons a t => rfl

/-- After `update_noise_floor` the energy history is exactly the
push-then-evict result. -/
theorem update_noise_floor_history (d : VoiceDetector) (rms : ℝ) :
    (d.update_noise_floor rms).energy_history = d.histAfter rms := by
  by_cases h : (d.histAfter rms).isEmpty <;>
    simp [VoiceDetector.update_noise_floor, h]

/-- After `update_noise_floor` with a non-empty resulting history, the noise
floor is the entry at index `max(1, ⌊len * 0.1⌋) - 1` of the
ascending-sorted copy of the new history. -/
theorem update_noise_floor_spec (d : VoiceDetector) (rms : ℝ)
    (hne : d.histAfter rms ≠ []) :
    (d.update_noise_floor rms).noise_floor =
      ((d.histAfter rms).insertionSort (· ≤ ·)).getD
        (max 1 ⌊(((d.histAfter rms).length : ℝ)) * 0.1⌋₊ - 1) 0 := by
  simp [VoiceDetector.update_noise_floor, isEmpty_false_of_ne_nil hne,
    List.length_insertionSort, Nat.max_comm]

/-- The configuration and capacity fields are untouched by
`update_noise_floor`. -/
theorem update_noise_floor_config (d : VoiceDetector) (rms : ℝ) :
    (d.update_noise_floor rms).history_size = d.history_size ∧
    (d.update_noise_floor rms).energy_threshold = d.energy_threshold ∧
    (d.update_noise_floor rms).silence_duration = d.silence_duration ∧
    (d.update_noise_floor rms).consecutive_threshold =
      d.consecutive_threshold := by
  by_cases h : (d.histAfter rms).isEmpty <;>
    simp [VoiceDetector.update_noise_floor, h]

/-- The selected noise floor is an element of the new history. -/
theorem update_noise_floor_mem (d : VoiceDetector) (rms : ℝ)
    (hne : d.histAfter rms ≠ []) :
    (d.update_noise_floor rms).noise_floor ∈ d.histAfter rms := by
  rw [update_noise_floor_spec d rms hne]
  have hn : 0 < (d.histAfter rms).length := List.length_pos.mpr hne
  have hidx : ⌊(((d.histAfter rms).length : ℝ)) * 0.1⌋₊ ≤
      (d.histAfter rms).length := by
    calc ⌊(((d.histAfter rms).length : ℝ)) * 0.1⌋₊
        ≤ ⌊((d.histAfter rms).length : ℝ)⌋₊ :=
          Nat.floor_le_floor (by
            have h0 : (0 : ℝ) ≤ ((d.histAfter rms).length : ℝ) := by positivity
            nlinarith)
      _ = (d.histAfter rms).length := Nat.floor_natCast _
  have hbound : max 1 ⌊(((d.histAfter rms).length : ℝ)) * 0.1⌋₊ - 1 <
      ((d.histAfter rms).insertionSort (· ≤ ·)).length := by
    rw [List.length_insertionSort]
    omega
  rw [List.getD_eq_getElem _ _ hbound]
  exact (List.mem_insertionSort _).mp (List.getElem_mem _)

/-! ## Claim C4 -/

/-- Claim C4: for every observed RMS value, the tracker inserts it into the
energy history and then, the history being non-empty, sets the noise floor
to the element at index `max(1, ⌊len * 0.1⌋) - 1` of an ascending-sorted
copy of the history, where `len` is the current history length; the chosen
value is in particular an element of the history, and the update is a pure
function of the detector state and the observed value. -/
theorem C4_noise_floor_is_low_percentile (d : VoiceDetector) (rms : ℝ)
    (hne : d.histAfter rms ≠ []) :
    (d.update_noise_floor rms).energy_history = d.histAfter rms ∧
    (d.update_noise_floor rms).noise_floor =
      ((d.histAfter rms).insertionSort (· ≤ ·)).getD
        (max 1 ⌊(((d.histAfter rms).length : ℝ)) * 0.1⌋₊ - 1) 0 ∧
    (d.update_noise_floor rms).noise_floor ∈ d.histAfter rms :=
  ⟨update_noise_floor_history d rms, update_noise_floor_spec d rms hne,
    update_noise_floor_mem d rms hne⟩

/-- Witness for C4: observing RMS 0 on a fresh detector yields the singleton
history `[0]`, and the noise floor becomes its only element. -/
theorem C4_noise_floor_is_low_percentile_witness :
    (VoiceDetector.new 0.02 0.5 ['y', 'o']).histAfter 0 ≠ [] ∧
    ((VoiceDetector.new 0.02 0.5 ['y', 'o']).update_noise_floor 0).energy_history =
      (VoiceDetector.new 0.02 0.5 ['y', 'o']).histAfter 0 ∧
    ((VoiceDetector.new 0.02 0.5 ['y', 'o']).update_noise_floor 0).noise_floor =
      (((VoiceDetector.new 0.02 0.5 ['y', 'o']).histAfter 0).insertionSort
          (· ≤ ·)).getD
        (max 1
          ⌊((((VoiceDetector.new 0.02 0.5 ['y', 'o']).histAfter 0).length : ℝ)) *
            0.1⌋₊ - 1) 0 ∧
    ((VoiceDetector.new 0.02 0.5 ['y', 'o']).update_noise_floor 0).noise_floor ∈
      (VoiceDetector.new 0.02 0.5 ['y', 'o']).histAfter 0 := by
  have hne : (VoiceDetector.new 0.02 0.5 ['y', 'o']).histAfter 0 ≠ [] := by
    show ¬([(0 : ℝ)] = [])
    simp
  exact ⟨hne,
    (C4_noise_floor_is_low_percentile (VoiceDetector.new 0.02 0.5 ['y', 'o'])
      0 hne).1,
    (C4_noise_floor_is_low_percentile (VoiceDetector.new 0.02 0.5 ['y', 'o'])
      0 hne).2.1,
    (C4_noise_floor_is_low_percentile (VoiceDetector.new 0.02 0.5 ['y', 'o'])
      0 hne).2.2⟩

/-! ## Voice activity: basic evaluation lemmas -/

/-- `is_voice_active` on the empty buffer with a positive window: no frames,
verdict `false`, detector unchanged. -/
theorem is_voice_active_nil (d : VoiceDetector) (w : ℕ) (hw : w ≠ 0) :
    d.is_voice_active [] w = some (false, d) := by
  simp [VoiceDetector.is_voice_active, chunksOf, chunksGo,
    VoiceDetector.vadLoop, hw]

/-! ## Claim C9 -/

/-- Claim C9 (implicit): calling `is_voice_active` with `window_size = 0`
panics for every sample buffer (`slice::chunks` requires a positive chunk
size; the panic is modelled by `none`); consequently `detect_silence` panics
whenever `(sample_rate * silence_duration) as usize = 0`, and nothing at
construction prevents reaching this case — e.g. `new` happily accepts a zero
silence duration, for which every `detect_silence` call panics. -/
theorem C9_zero_window_size_panics :
    (∀ (d : VoiceDetector) (samples : List ℝ),
      d.is_voice_active samples 0 = none) ∧
    (∀ (d : VoiceDetector) (samples : List ℝ) (rate : ℕ),
      ⌊(rate : ℝ) * d.silence_duration⌋₊ = 0 →
      d.detect_silence samples rate = none) ∧
    (∀ (aw : List Char) (samples : List ℝ) (rate : ℕ),
      (VoiceDetector.new 0.02 0 aw).detect_silence samples rate = none) := by
  refine ⟨fun d samples => by simp [VoiceDetector.is_voice_active],
    fun d samples rate h => ?_, fun aw samples rate => ?_⟩
  · unfold VoiceDetector.detect_silence
    rw [h]
    simp [VoiceDetector.is_voice_active]
  · unfold VoiceDetector.detect_silence
    have h : ⌊(rate : ℝ) * (VoiceDetector.new 0.02 0 aw).silence_duration⌋₊ = 0 := by
      have hd : (VoiceDetector.new 0.02 0 aw).silence_duration = 0 := rfl
      rw [hd, mul_zero]
      exact Nat.floor_zero
    rw [h]
    simp [VoiceDetector.is_voice_active]

/-- Witness for C9: with the default configuration (silence duration 0.5 s)
and a sample rate of 1 Hz, the derived window size truncates to 0 and
`detect_silence` panics. -/
theorem C9_zero_window_size_panics_witness :
    ⌊((1 : ℕ) : ℝ) * (VoiceDetector.new 0.02 0.5 ['y', 'o']).silence_duration⌋₊ = 0 ∧
    (VoiceDetector.new 0.02 0.5 ['y', 'o']).detect_silence [] 1 = none := by
  have h : ⌊((1 : ℕ) : ℝ) * (VoiceDetector.new 0.02 0.5 ['y', 'o']).silence_duration⌋₊ = 0 := by
    have hd : (VoiceDetector.new 0.02 0.5 ['y', 'o']).silence_duration = 0.5 := rfl
    rw [hd, Nat.cast_one, one_mul, Nat.floor_eq_zero]
    norm_num
  exact ⟨h, C9_zero_window_size_panics.2.1
    (VoiceDetector.new 0.02 0.5 ['y', 'o']) [] 1 h⟩

/-! ## Claim C6 -/

/-- Counterexample to claim C6 as stated: the claim derives the window as
`round(sample_rate * silence_duration)`, but the code truncates (`as usize`).
With the default configuration (silence duration 0.5 s) and sample rate 1,
`round(0.5) = 1` and `is_voice_active` at window 1 returns `some (false, ·)`,
so the claim predicts `detect_silence = some (true, ·)`; the code instead
truncates the window to 0 and panics (`none`). -/
theorem C6_round_counterexample :
    (round (((1 : ℕ) : ℝ) *
        (VoiceDetector.new 0.02 0.5 ['y', 'o']).silence_duration)).toNat = 1 ∧
    (VoiceDetector.new 0.02 0.5 ['y', 'o']).is_voice_active [] 1 =
      some (false, VoiceDetector.new 0.02 0.5 ['y', 'o']) ∧
    (VoiceDetector.new 0.02 0.5 ['y', 'o']).detect_silence [] 1 = none := by
  refine ⟨?_, is_voice_active_nil _ 1 one_ne_zero, ?_⟩
  · have hd : (VoiceDetector.new 0.02 0.5 ['y', 'o']).silence_duration = 0.5 := rfl
    rw [hd, Nat.cast_one, one_mul, round_eq]
    norm_num
  · unfold VoiceDetector.detect_silence
    have h : ⌊((1 : ℕ) : ℝ) * (VoiceDetector.new 0.02 0.5 ['y', 'o']).silence_duration⌋₊ = 0 := by
      have hd : (VoiceDetector.new 0.02 0.5 ['y', 'o']).silence_duration = 0.5 := rfl
      rw [hd, Nat.cast_one, one_mul, Nat.floor_eq_zero]
      norm_num
    rw [h]
    simp [VoiceDetector.is_voice_active]

/-- Claim C6 (amended: the window size is the `as usize` truncation of
`sample_rate * silence_duration`, not its rounding): whenever
`is_voice_active` over that window returns a verdict, `detect_silence`
returns its logical negation together with the identically mutated detector
state. -/
theorem C6_detect_silence_negates_is_voice_active (d : VoiceDetector)
    (samples : List ℝ) (rate : ℕ) (b : Bool) (d' : VoiceDetector)
    (h : d.is_voice_active samples ⌊(rate : ℝ) * d.silence_duration⌋₊ =
      some (b, d')) :
    d.detect_silence samples rate = some (!b, d') := by
  unfold VoiceDetector.detect_silence
  rw [h]
  rfl

/-- Witness for the amended C6: a detector with silence duration 1 s at
16000 Hz uses window 16000; on the empty buffer the activity verdict is
`false` and `detect_silence` reports `true`. -/
theorem C6_detect_silence_negates_is_voice_active_witness :
    (VoiceDetector.new 0.02 1 ['y', 'o']).is_voice_active []
        ⌊((16000 : ℕ) : ℝ) * (VoiceDetector.new 0.02 1 ['y', 'o']).silence_duration⌋₊ =
      some (false, VoiceDetector.new 0.02 1 ['y', 'o']) ∧
    (VoiceDetector.new 0.02 1 ['y', 'o']).detect_silence [] 16000 =
      some (true, VoiceDetector.new 0.02 1 ['y', 'o']) := by
  have hw : ⌊((16000 : ℕ) : ℝ) *
      (VoiceDetector.new 0.02 1 ['y', 'o']).silence_duration⌋₊ = 16000 := by
    have hd : (VoiceDetector.new 0.02 1 ['y', 'o']).silence_duration = 1 := rfl
    rw [hd, mul_one]
    exact Nat.floor_natCast 16000
  have h1 : (VoiceDetector.new 0.02 1 ['y', 'o']).is_voice_active []
      ⌊((16000 : ℕ) : ℝ) * (VoiceDetector.new 0.02 1 ['y', 'o']).silence_duration⌋₊ =
      some (false, VoiceDetector.new 0.02 1 ['y', 'o']) := by
    rw [hw]
    exact is_voice_active_nil _ 16000 (by norm_num)
  exact ⟨h1, C6_detect_silence_negates_is_voice_active
    (VoiceDetector.new 0.02 1 ['y', 'o']) [] 16000 false
    (VoiceDetector.new 0.02 1 ['y', 'o']) h1⟩

/-! ## Claim C3: the activity verdict is the existence of a run of
`consecutive_threshold` consecutive over-threshold frames -/

/-- The detector state after observing one frame (RMS computation followed by
the noise-floor update), as performed by each iteration of
`is_voice_active`'s frame loop. -/
noncomputable def stepDetector (d : VoiceDetector) (frame : List ℝ) :
    VoiceDetector :=
  d.update_noise_floor (VoiceDetector.calculate_rms frame)

/-- Whether a frame counts as active: its RMS strictly exceeds
`max(energy_threshold, noise_floor * 2.5)` computed from the detector state
already updated with this frame's RMS. -/
noncomputable def frameActive (d : VoiceDetector) (frame : List ℝ) : Bool :=
  decide (VoiceDetector.calculate_rms frame >
    max (stepDetector d frame).energy_threshold
      ((stepDetector d frame).noise_floor * 2.5))

/-- The per-frame activity flags of a frame sequence, threading the evolving
noise-floor state from left to right. -/
noncomputable def activeFlags (d : VoiceDetector) :
    List (List ℝ) → List Bool
  | [] => []
  | f :: fs => frameActive d f :: activeFlags (stepDetector d f) fs

/-- The consecutive-counter loop of `is_voice_active`, abstracted over the
list of per-frame activity flags. -/
def runCheck (required : ℕ) : ℕ → List Bool → Bool
  | _, [] => false
  | consec, b :: bs =>
    if b then
      if required ≤ consec + 1 then true else runCheck required (consec + 1) bs
    else runCheck required 0 bs

/-- A shorter all-true run is a prefix of whatever a longer one is a prefix
of. -/
theorem replicate_true_pref_of_le {m k : ℕ} {bs : List Bool} (h : m ≤ k)
    (hp : List.replicate k true <+: bs) : List.replicate m true <+: bs := by
  have hmk : List.replicate m true <+: List.replicate k true := by
    have hk : k = m + (k - m) := by omega
    rw [hk, List.replicate_add]
    exact List.prefix_append _ _
  exact hmk.trans hp

/-- A prefix is in particular a contiguous run. -/
theorem inf_of_pref {l bs : List Bool} (h : l <+: bs) : l <:+: bs := by
  obtain ⟨t, ht⟩ := h
  exact ⟨[], t, by simpa using ht⟩

/-- Characterisation of the consecutive-counter loop: starting from counter
value `consec < required`, the loop reports `true` iff either an initial
all-true run tops up the counter to `required`, or a full run of `required`
consecutive `true` flags occurs somewhere in the list. -/
theorem runCheck_iff (required : ℕ) :
    ∀ (bs : List Bool) (consec : ℕ), consec < required →
      (runCheck required consec bs = true ↔
        (∃ k, required ≤ consec + k ∧ List.replicate k true <+: bs) ∨
          List.replicate required true <:+: bs)
  | [], consec, hc => by
    simp only [runCheck, Bool.false_eq_true, false_iff]
    rintro (⟨k, hk, hp⟩ | hi)
    · have h0 := List.eq_nil_of_prefix_nil hp
      rw [List.replicate_eq_nil_iff] at h0
      omega
    · rw [ List.infix_nil, List.replicate_eq_nil_iff] at hi
      omega
  | b :: bs, consec, hc => by
    cases b with
    | true =>
      by_cases h1 : required ≤ consec + 1
      · have lhs : runCheck required consec (true :: bs) = true := by
          simp [runCheck, h1]
        refine ⟨fun _ => Or.inl ⟨1, by omega, ?_⟩, fun _ => lhs⟩
        rw [List.replicate_succ, List.replicate_zero]
        exact List.cons_prefix_cons.mpr ⟨rfl, List.nil_prefix⟩
      · have hstep : runCheck required consec (true :: bs) =
            runCheck required (consec + 1) bs := by
          simp [runCheck, h1]
        rw [hstep, runCheck_iff required bs (consec + 1) (by omega)]
        constructor
        · rintro (⟨k, hk, hp⟩ | hi)
          · refine Or.inl ⟨k + 1, by omega, ?_⟩
            rw [List.replicate_succ]
            exact List.cons_prefix_cons.mpr ⟨rfl, hp⟩
          · exact Or.inr (List.infix_cons hi)
        · rintro (⟨k, hk, hp⟩ | hi)
          · cases k with
            | zero => omega
            | succ k' =>
              rw [List.replicate_succ, List.cons_prefix_cons] at hp
              exact Or.inl ⟨k', by omega, hp.2⟩
          · rcases List.infix_cons_iff.mp hi with hpre | hinf
            · obtain ⟨r', hr'⟩ : ∃ r', required = r' + 1 :=
                ⟨required - 1, by omega⟩
              rw [hr', List.replicate_succ, List.cons_prefix_cons] at hpre
              exact Or.inl ⟨r', by omega, hpre.2⟩
            · exact Or.inr hinf
    | false =>
      have hstep : runCheck required consec (false :: bs) =
          runCheck required 0 bs := by
        simp [runCheck]
      rw [hstep, runCheck_iff required bs 0 (by omega)]
      constructor
      · rintro (⟨k, hk, hp⟩ | hi)
        · exact Or.inr (List.infix_cons
            (inf_of_pref (replicate_true_pref_of_le (by omega) hp)))
        · exact Or.inr (List.infix_cons hi)
      · rintro (⟨k, hk, hp⟩ | hi)
        · cases k with
          | zero => omega
          | succ k' =>
            rw [List.replicate_succ, List.cons_prefix_cons] at hp
            exact absurd hp.1 (by simp)
        · rcases List.infix_cons_iff.mp hi with hpre | hinf
          · obtain ⟨r', hr'⟩ : ∃ r', required = r' + 1 :=
              ⟨required - 1, by omega⟩
            rw [hr', List.replicate_succ, List.cons_prefix_cons] at hpre
            exact absurd hpre.1 (by simp)
          · exact Or.inr hinf

/-- With the counter starting at zero, the loop reports `true` iff a run of
`required` consecutive `true` flags occurs. -/
theorem runCheck_zero_iff {required : ℕ} (hreq : 0 < required)
    (bs : List Bool) :
    (runCheck required 0 bs = true ↔
      List.replicate required true <:+: bs) := by
  rw [runCheck_iff required bs 0 hreq]
  constructor
  · rintro (⟨k, hk, hp⟩ | hi)
    · exact inf_of_pref (replicate_true_pref_of_le (by omega) hp)
    · exact hi
  · intro hi
    exact Or.inr hi

/-- The Boolean verdict of the frame loop equals the counter loop run over
the per-frame activity flags. -/
theorem vadLoop_fst (required : ℕ) :
    ∀ (frames : List (List ℝ)) (d : VoiceDetector) (consec : ℕ),
      (VoiceDetector.vadLoop required d consec frames).1 =
        runCheck required consec (activeFlags d frames)
  | [], d, consec => rfl
  | f :: fs, d, consec => by
    simp only [VoiceDetector.vadLoop, activeFlags, runCheck, frameActive,
      stepDetector]
    by_cases h : VoiceDetector.calculate_rms f >
        max (d.update_noise_floor (VoiceDetector.calculate_rms f)).energy_threshold
          ((d.update_noise_floor (VoiceDetector.calculate_rms f)).noise_floor * 2.5)
    · simp only [if_pos h, decide_eq_true h]
      by_cases h1 : required ≤ consec + 1
      · simp [h1]
      · simp only [if_neg h1, if_true]
        exact vadLoop_fst required fs _ (consec + 1)
    · simp only [if_neg h, decide_eq_false h, Bool.false_eq_true, if_false]
      exact vadLoop_fst required fs _ 0

/-- Claim C3: for every sample buffer and positive window size,
`is_voice_active` splits the buffer into successive frames of `window_size`
samples (last partial frame included) and returns true iff, processing
frames in order and updating the noise floor with each frame's RMS, some
frame completes a run of `consecutive_threshold` (= 3) consecutive frames
each with RMS strictly greater than `max(energy_threshold, noise_floor *
2.5)` — i.e. iff a run of three consecutive active flags occurs; otherwise
the result is false. -/
theorem C3_is_voice_active_iff_three_consecutive_frames (d : VoiceDetector)
    (samples : List ℝ) (w : ℕ) (b : Bool) (d' : VoiceDetector)
    (hreq : d.consecutive_threshold = 3) (hw : 0 < w)
    (h : d.is_voice_active samples w = some (b, d')) :
    (b = true ↔
      List.replicate 3 true <:+: activeFlags d (chunksOf w samples)) := by
  unfold VoiceDetector.is_voice_active at h
  rw [if_neg (by omega)] at h
  injection h with h2
  have hb : b = (VoiceDetector.vadLoop d.consecutive_threshold d 0
      (chunksOf w samples)).1 := by
    rw [h2]
  rw [hb, vadLoop_fst, hreq, runCheck_zero_iff (by norm_num)]

/-- Witness for C3: the empty buffer at window size 1 has no frames, the
verdict is `false`, and indeed no run of three active frames exists. -/
theorem C3_is_voice_active_iff_three_consecutive_frames_witness :
    (VoiceDetector.new 0.02 0.5 ['y', 'o']).consecutive_threshold = 3 ∧
    0 < 1 ∧
    (VoiceDetector.new 0.02 0.5 ['y', 'o']).is_voice_active [] 1 =
      some (false, VoiceDetector.new 0.02 0.5 ['y', 'o']) ∧
    (false = true ↔
      List.replicate 3 true <:+:
        activeFlags (VoiceDetector.new 0.02 0.5 ['y', 'o']) (chunksOf 1 [])) :=
  ⟨rfl, by decide, is_voice_active_nil _ 1 one_ne_zero,
    C3_is_voice_active_iff_three_consecutive_frames
      (VoiceDetector.new 0.02 0.5 ['y', 'o']) [] 1 false
      (VoiceDetector.new 0.02 0.5 ['y', 'o']) rfl (by decide)
      (is_voice_active_nil _ 1 one_ne_zero)⟩

/-! ## Claim C5: the energy history is bounded by its capacity -/

/-- Push-then-evict never grows the history beyond the capacity. -/
theorem histAfter_length_le (d : VoiceDetector) (rms : ℝ)
    (h : d.energy_history.length ≤ d.history_size) :
    (d.histAfter rms).length ≤ d.history_size := by
  simp only [VoiceDetector.histAfter]
  split_ifs with hgt
  · simp only [List.length_tail, List.length_append, List.length_singleton]
    omega
  · simp only [List.length_append, List.length_singleton] at hgt ⊢
    omega

/-- `update_noise_floor` preserves the capacity invariant. -/
theorem update_noise_floor_length_le (d : VoiceDetector) (rms : ℝ)
    (h : d.energy_history.length ≤ d.history_size) :
    (d.update_noise_floor rms).energy_history.length ≤
      (d.update_noise_floor rms).history_size := by
  rw [update_noise_floor_history, (update_noise_floor_config d rms).1]
  exact histAfter_length_le d rms h

/-- The frame loop preserves the capacity invariant and never alters the
capacity itself. -/
theorem vadLoop_capacity (required : ℕ) :
    ∀ (frames : List (List ℝ)) (d : VoiceDetector) (consec : ℕ),
      d.energy_history.length ≤ d.history_size →
      ((VoiceDetector.vadLoop required d consec frames).2.energy_history.length ≤
          (VoiceDetector.vadLoop required d consec frames).2.history_size ∧
        (VoiceDetector.vadLoop required d consec frames).2.history_size =
          d.history_size)
  | [], d, consec => fun h => ⟨h, rfl⟩
  | f :: fs, d, consec => by
    intro h
    have hstep : (d.update_noise_floor
        (VoiceDetector.calculate_rms f)).energy_history.length ≤
        (d.update_noise_floor (VoiceDetector.calculate_rms f)).history_size :=
      update_noise_floor_length_le d _ h
    have hsize := (update_noise_floor_config d
      (VoiceDetector.calculate_rms f)).1
    simp only [VoiceDetector.vadLoop]
    split_ifs with h1 h2
    · exact ⟨hstep, hsize⟩
    · have ih := vadLoop_capacity required fs
        (d.update_noise_floor (VoiceDetector.calculate_rms f)) (consec + 1)
        hstep
      exact ⟨ih.1, ih.2.trans hsize⟩
    · have ih := vadLoop_capacity required fs
        (d.update_noise_floor (VoiceDetector.calculate_rms f)) 0 hstep
      exact ⟨ih.1, ih.2.trans hsize⟩

/-- An `is_voice_active` verdict pins down the result of the frame loop. -/
theorem is_voice_active_some (d : VoiceDetector) (samples : List ℝ) (w : ℕ)
    (b : Bool) (d' : VoiceDetector)
    (h : d.is_voice_active samples w = some (b, d')) :
    (b, d') = VoiceDetector.vadLoop d.consecutive_threshold d 0
      (chunksOf w samples) := by
  unfold VoiceDetector.is_voice_active at h
  by_cases hw : w = 0
  · rw [if_pos hw] at h
    exact absurd h (by simp)
  · rw [if_neg hw] at h
    injection h with h2
    rw [h2]

/-- The capacity bound after one `is_voice_active` call. -/
theorem is_voice_active_length_le (d : VoiceDetector) (samples : List ℝ)
    (w : ℕ) (b : Bool) (d' : VoiceDetector)
    (hlen : d.energy_history.length ≤ d.history_size)
    (h : d.is_voice_active samples w = some (b, d')) :
    d'.energy_history.length ≤ d.history_size := by
  have h2 := is_voice_active_some d samples w b d' h
  have hcap := vadLoop_capacity d.consecutive_threshold
    (chunksOf w samples) d 0 hlen
  have hd' : d' = (VoiceDetector.vadLoop d.consecutive_threshold d 0
      (chunksOf w samples)).2 := by
    rw [← h2]
  rw [hd', ← hcap.2]
  exact hcap.1

/-- Claim C5: for a detector with capacity 50 and a history currently within
capacity, the energy history still holds at most 50 entries after any
`is_voice_active` or `detect_silence` call, and whenever an insertion would
exceed the capacity the oldest entry is the one evicted (push at the back,
pop at the front). -/
theorem C5_energy_history_capacity (d : VoiceDetector)
    (hsize : d.history_size = 50)
    (hlen : d.energy_history.length ≤ 50) :
    (∀ (samples : List ℝ) (w : ℕ) (b : Bool) (d' : VoiceDetector),
        d.is_voice_active samples w = some (b, d') →
        d'.energy_history.length ≤ 50) ∧
    (∀ (samples : List ℝ) (rate : ℕ) (b : Bool) (d' : VoiceDetector),
        d.detect_silence samples rate = some (b, d') →
        d'.energy_history.length ≤ 50) ∧
    (∀ rms : ℝ, d.energy_history.length = 50 →
        (d.update_noise_floor rms).energy_history =
          (d.energy_history ++ [rms]).tail) := by
  refine ⟨fun samples w b d' h => ?_, fun samples rate b d' h => ?_,
    fun rms hfull => ?_⟩
  · rw [← hsize]
    exact is_voice_active_length_le d samples w b d' (by omega) h
  · unfold VoiceDetector.detect_silence at h
    cases hv : d.is_voice_active samples
        ⌊(rate : ℝ) * d.silence_duration⌋₊ with
    | none => rw [hv] at h; exact absurd h (by simp)
    | some p =>
      rw [hv] at h
      simp only [Option.map_some'] at h
      injection h with h2
      have hd' : d' = p.2 := congrArg Prod.snd h2.symm
      rw [hd', ← hsize]
      exact is_voice_active_length_le d samples _ p.1 p.2 (by omega)
        (by rw [hv])
  · rw [update_noise_floor_history]
    simp only [VoiceDetector.histAfter]
    rw [if_pos]
    simp only [List.length_append, List.length_singleton]
    omega

/-- Witness for C5: the fresh detector has capacity 50 and empty history;
after the trivial `is_voice_active` call the bound still holds. -/
theorem C5_energy_history_capacity_witness :
    (VoiceDetector.new 0.02 0.5 ['y', 'o']).history_size = 50 ∧
    (VoiceDetector.new 0.02 0.5 ['y', 'o']).energy_history.length ≤ 50 ∧
    (VoiceDetector.new 0.02 0.5 ['y', 'o']).is_voice_active [] 1 =
      some (false, VoiceDetector.new 0.02 0.5 ['y', 'o']) ∧
    (VoiceDetector.new 0.02 0.5 ['y', 'o']).energy_history.length ≤ 50 :=
  ⟨rfl, by decide, is_voice_active_nil _ 1 one_ne_zero,
    (C5_energy_history_capacity (VoiceDetector.new 0.02 0.5 ['y', 'o']) rfl
      (by decide)).1 [] 1 false (VoiceDetector.new 0.02 0.5 ['y', 'o'])
      (is_voice_active_nil _ 1 one_ne_zero)⟩

/-! ## Claim C7: resampler output length -/

/-- The break condition of the resampling loop at output index `i` holds iff
`i` has passed the edge bound `⌈(len - 1) * 16000 / rate⌉`. -/
theorem resample_break_iff (len rate : ℕ) (hrate : 0 < rate) (i : ℕ) :
    (len - 1 ≤ ⌊(i : ℚ) / ((16000 : ℚ) / (rate : ℚ))⌋₊ ↔
      ⌈((len - 1 : ℕ) : ℚ) * 16000 / (rate : ℚ)⌉₊ ≤ i) := by
  have hr0 : ((rate : ℚ)) ≠ 0 := Nat.cast_ne_zero.mpr hrate.ne'
  have hrpos : (0 : ℚ) < (rate : ℚ) := by exact_mod_cast hrate
  have hpos : (0 : ℚ) ≤ (i : ℚ) / ((16000 : ℚ) / (rate : ℚ)) := by positivity
  rw [Nat.le_floor_iff hpos, Nat.ceil_le]
  have hposeq : (i : ℚ) / ((16000 : ℚ) / (rate : ℚ)) =
      (i : ℚ) * (rate : ℚ) / 16000 := by
    field_simp
  rw [hposeq, le_div_iff₀ (by norm_num : (0 : ℚ) < 16000),
    div_le_iff₀ hrpos]

/-- Length of the resampling loop from output index `i` with the given
fuel: fuel is consumed one output sample at a time until the edge bound is
reached. -/
theorem resampleGo_length (samples : List ℚ) (rate : ℕ) (hrate : 0 < rate) :
    ∀ (fuel i : ℕ),
      (resampleGo samples rate fuel i).length =
        min fuel
          (⌈((samples.length - 1 : ℕ) : ℚ) * 16000 / (rate : ℚ)⌉₊ - i)
  | 0, i => by simp [resampleGo]
  | fuel + 1, i => by
    simp only [resampleGo]
    split_ifs with hbr
    · rw [resample_break_iff samples.length rate hrate i] at hbr
      simp only [List.length_nil]
      omega
    · rw [resample_break_iff samples.length rate hrate i] at hbr
      simp only [List.length_cons,
        resampleGo_length samples rate hrate fuel (i + 1)]
      omega

/-- Counterexample to claim C7 as stated: resampling the 4-sample buffer
`[1, 2, 3, 4]` from 8000 Hz to 16000 Hz produces only 6 samples (the
`pos_floor >= len - 1` break truncates the upsampled tail), not
`floor(4 * 16000 / 8000) = 8` as the claim requires. -/
theorem C7_length_counterexample :
    (resample [1, 2, 3, 4] 8000).length = 6 ∧
    ⌊(([(1 : ℚ), 2, 3, 4].length : ℚ) * 16000 / (8000 : ℚ))⌋₊ = 8 := by
  have hl : ([(1 : ℚ), 2, 3, 4].length) = 4 := rfl
  constructor
  · rw [resample, if_neg (by norm_num)]
    rw [resampleGo_length [1, 2, 3, 4] 8000 (by norm_num)]
    rw [hl]
    have h1 : ((4 : ℕ) : ℚ) * ((16000 : ℚ) / ((8000 : ℕ) : ℚ)) = 8 := by
      norm_num
    have h2 : (((4 : ℕ) - 1 : ℕ) : ℚ) * 16000 / ((8000 : ℕ) : ℚ) = 6 := by
      norm_num
    rw [h1, h2]
    rw [show ⌊(8 : ℚ)⌋₊ = 8 from Nat.floor_ofNat 8,
      show ⌈(6 : ℚ)⌉₊ = 6 from Nat.ceil_ofNat 6]
    omega
  · rw [hl]
    have h1 : ((4 : ℕ) : ℚ) * 16000 / (8000 : ℚ) = 8 := by norm_num
    rw [h1]
    exact Nat.floor_ofNat 8

/-- Claim C7 (amended: for upsampling the edge-truncation break shortens the
output below `floor(len * target / source)`): resampling at the target rate
is the identity, empty input gives empty output, and otherwise the output
length is exactly `min(floor(len * 16000 / rate),
ceil((len - 1) * 16000 / rate))`. -/
theorem C7_resample_contract (samples : List ℚ) (rate : ℕ)
    (hrate : 0 < rate) :
    (rate = 16000 → resample samples rate = samples) ∧
    (samples = [] → resample samples rate = []) ∧
    (rate ≠ 16000 →
      (resample samples rate).length =
        min ⌊(samples.length : ℚ) * ((16000 : ℚ) / (rate : ℚ))⌋₊
          ⌈((samples.length - 1 : ℕ) : ℚ) * 16000 / (rate : ℚ)⌉₊) := by
  refine ⟨fun h => by simp [resample, h], fun h => ?_, fun hne => ?_⟩
  · subst h
    by_cases h16 : rate = 16000
    · simp [resample, h16]
    · simp [resample, h16, resampleGo]
  · rw [resample, if_neg hne,
      resampleGo_length samples rate hrate]
    omega

/-- Witness for the amended C7: upsampling `[1, 2, 3, 4]` from 8000 Hz. -/
theorem C7_resample_contract_witness :
    0 < 8000 ∧
    ((8000 = 16000 → resample [1, 2, 3, 4] 8000 = [1, 2, 3, 4]) ∧
      (([(1 : ℚ), 2, 3, 4]) = [] → resample [1, 2, 3, 4] 8000 = []) ∧
      (8000 ≠ 16000 →
        (resample [1, 2, 3, 4] 8000).length =
          min ⌊(([(1 : ℚ), 2, 3, 4].length : ℚ)) * ((16000 : ℚ) / (8000 : ℚ))⌋₊
            ⌈(([(1 : ℚ), 2, 3, 4].length - 1 : ℕ) : ℚ) * 16000 /
              ((8000 : ℕ) : ℚ)⌉₊)) :=
  ⟨by decide, C7_resample_contract [1, 2, 3, 4] 8000 (by decide)⟩

/-! ## Claim C8: every per-cycle error resets the machine and the loop
continues -/

/-- Claim C8: whenever one orchestration cycle returns an error — from any
conversation state, at any failing step (capture, persistence,
transcription, reasoning, speech output) — the control loop catches it,
resets the conversation state to `AwaitingWakeWord`, clears the active flag,
and continues with that reset assistant rather than terminating. -/
theorem C8_cycle_errors_are_recovered (a : Assistant) (env : Env)
    (a' : Assistant) (e : Unit)
    (h : a.process_interaction env = some (a', .error e)) :
    a.runStep env =
      some { a' with state := .AwaitingWakeWord, is_active := false } ∧
    ∃ r, a.runStep env = some r ∧ r.state = .AwaitingWakeWord ∧
      r.is_active = false := by
  have h1 : a.runStep env =
      some { a' with state := .AwaitingWakeWord, is_active := false } := by
    unfold Assistant.runStep
    rw [h]
  exact ⟨h1, _, h1, rfl, rfl⟩

/-- The assistant as constructed by `VoiceAssistant::new` and then reset to
`AwaitingWakeWord` at the start of `run`. -/
noncomputable def initialAssistant : Assistant where
  voice_detector := VoiceDetector.new 0.02 0.5 ['y', 'o']
  is_active := false
  state := .AwaitingWakeWord
  command_history := []
  max_history := 10

/-- An environment whose audio capture fails (e.g. no input device). -/
def envCaptureFail : Env where
  captureShort := .error ()
  captureLong := .error ()
  saveWav := .ok ()
  stt := .ok []
  llm := .ok []
  tts := .ok ()

/-- Witness for C8: a failed capture while awaiting the wake word is caught
and the loop continues from the reset state. -/
theorem C8_cycle_errors_are_recovered_witness :
    initialAssistant.process_interaction envCaptureFail =
      some (initialAssistant, .error ()) ∧
    initialAssistant.runStep envCaptureFail =
      some { initialAssistant with
               state := .AwaitingWakeWord
               is_active := false } := by
  have h : initialAssistant.process_interaction envCaptureFail =
      some (initialAssistant, .error ()) := rfl
  exact ⟨h, (C8_cycle_errors_are_recovered initialAssistant envCaptureFail
    initialAssistant () h).1⟩

end VoiceAssistant
